import Mathlib

/-!
Shallow embedding of `src/express.ts` (a tiny express-like router for AWS
Lambda).  JavaScript strings are modelled as Lean `String`s manipulated
through their character lists; JS built-ins (`String.prototype.startsWith`,
`substring`, concatenation, `JSON.parse`, `JSON.stringify`,
`Buffer.from(-, "base64")`, `encodeURIComponent`) are modelled by executable
Lean functions defined below.  Mutation of the shared `Request`/`Response`
objects is modelled by explicit state passing; the promise resolver of
`Router.getResponse` is modelled by the `resolved` field of `Response`,
which keeps the snapshot taken at the first `finish` (a promise settles
once).  Handlers and middlewares are modelled as Lean functions on the
`Request × Response` state, middleware in continuation-passing style
exactly like the source's `next` callbacks.
-/

/-- Model of JS `s.startsWith(pre)`. -/
def jsStartsWith (s pre : String) : Bool :=
  s.data.take pre.data.length == pre.data

/-- Model of JS `s.length` (character count). -/
def jsLength (s : String) : Nat :=
  s.data.length

/-- Model of JS `s.substring(n)`: drop the first `n` characters. -/
def jsDrop (s : String) (n : Nat) : String :=
  String.mk (s.data.drop n)

/-- Model of JS string concatenation. -/
def jsConcat (a b : String) : String :=
  String.mk (a.data ++ b.data)

/-- JSON values as produced by `JSON.parse`.  Numbers are kept as exact
decimals `mantissa * 10 ^ exp10` (the claims never exercise IEEE-754
specific behaviour). -/
inductive Json where
  | null : Json
  | bool (b : Bool) : Json
  | num (mantissa : Int) (exp10 : Int) : Json
  | str (s : String) : Json
  | arr (elems : List Json) : Json
  | obj (fields : List (String × Json)) : Json

/-- Hex digit (uppercase) for escape sequences. -/
def hexDigit (n : Nat) : Char :=
  if n < 10 then Char.ofNat (48 + n) else Char.ofNat (55 + n)

/-- JSON string escaping of one character, as in `JSON.stringify`. -/
def escapeChar (c : Char) : List Char :=
  if c = '"' then ['\\', '"']
  else if c = '\\' then ['\\', '\\']
  else if c = '\n' then ['\\', 'n']
  else if c = '\r' then ['\\', 'r']
  else if c = '\t' then ['\\', 't']
  else if c = Char.ofNat 8 then ['\\', 'b']
  else if c = Char.ofNat 12 then ['\\', 'f']
  else if c.toNat < 32 then
    ['\\', 'u', '0', '0', hexDigit (c.toNat / 16), hexDigit (c.toNat % 16)]
  else [c]

/-- Quoted, escaped JSON string literal. -/
def quoteString (s : String) : String :=
  String.mk ('"' :: (s.data.map escapeChar).flatten ++ ['"'])

/-- Decimal rendering of a `Json.num`. -/
def numToString (m e : Int) : String :=
  if e = 0 then toString m else toString m ++ "e" ++ toString e

mutual

/-- Model of `JSON.stringify` (no spacing, insertion order preserved). -/
def Json.stringify : Json → String
  | .null => "null"
  | .bool true => "true"
  | .bool false => "false"
  | .num m e => numToString m e
  | .str s => quoteString s
  | .arr xs => "[" ++ Json.stringifyElems xs ++ "]"
  | .obj fs => "\x7b" ++ Json.stringifyFields fs ++ "\x7d"

/-- Comma-separated serialization of array elements. -/
def Json.stringifyElems : List Json → String
  | [] => ""
  | [x] => x.stringify
  | x :: y :: rest => x.stringify ++ "," ++ Json.stringifyElems (y :: rest)

/-- Comma-separated serialization of object members. -/
def Json.stringifyFields : List (String × Json) → String
  | [] => ""
  | [(k, v)] => quoteString k ++ ":" ++ v.stringify
  | (k, v) :: kv :: rest =>
      quoteString k ++ ":" ++ v.stringify ++ "," ++ Json.stringifyFields (kv :: rest)

end

/-- A request header value: JS `string | string[]`. -/
inductive HeaderV where
  | one (s : String) : HeaderV
  | many (ss : List String) : HeaderV

/-- The request body after `parseRequest`: JS `null`, a raw string, or a
parsed JSON structure. -/
inductive BodyVal where
  | null : BodyVal
  | str (s : String) : BodyVal
  | json (j : Json) : BodyVal

/-- `Request` from `src/express.ts` (lines 21-41). -/
structure Request where
  body : BodyVal
  headers : List (String × HeaderV)
  method : String
  path : String

/-- `Request.removePathPrefix` (line 27-29): `path = path.substring(prefix.length)`.
Note that the source drops `prefix.length` characters unconditionally,
whether or not `path` actually starts with the given string. -/
def Request.removePathPrefix (r : Request) (p : String) : Request :=
  { r with path := jsDrop r.path (jsLength p) }

/-- `Request.addPathPrefix` (line 31-33): `path = prefix + path`. -/
def Request.addPathPrefix (r : Request) (p : String) : Request :=
  { r with path := jsConcat p r.path }

/-- `APIGatewayProxyResult`: the external result shape produced by
`Router.resToResponse` (lines 170-176). -/
structure LambdaResult where
  statusCode : Int
  body : String
  headers : List (String × String)
deriving DecidableEq

/-- `Response` from `src/express.ts` (lines 43-74).  The `resolver` bound to
the pending promise in `Router.getResponse` is modelled by `resolved`: the
promise settles at the first `finish`, so `resolved` keeps the snapshot of
the first call and ignores all later ones. -/
structure Response where
  statusCode : Int := 200
  body : String := ""
  contentType : String := "text/html"
  resolved : Option LambdaResult := none

/-- `Router.resToResponse` (lines 170-176): snapshot of the response fields
in the external result shape. -/
def resToResponse (res : Response) : LambdaResult :=
  { statusCode := res.statusCode
    body := res.body
    headers := [("Content-Type", res.contentType)] }

/-- `Response.finish` (lines 67-69): `this.resolver(this)`.  The promise
behind the resolver settles once, so only the first call is observable. -/
def Response.finish (res : Response) : Response :=
  match res.resolved with
  | some _ => res
  | none => { res with resolved := some (resToResponse res) }

/-- `Response.status` (lines 49-52). -/
def Response.status (res : Response) (code : Int) : Response :=
  { res with statusCode := code }

/-- `Response.json` (lines 54-59): serialize, set content type, finish. -/
def Response.json (res : Response) (data : Json) : Response :=
  ({ res with body := data.stringify, contentType := "application/json" } : Response).finish

/-- `Response.send` (lines 61-65): set raw body, finish. -/
def Response.send (res : Response) (data : String) : Response :=
  ({ res with body := data } : Response).finish

/-- A `Handler` (lines 76-78) acts on the shared request/response pair. -/
def Handler : Type :=
  Request × Response → Request × Response

/-- A `Middleware` (lines 80-86) in continuation-passing style: it receives
the shared state and the `next` continuation, exactly like the closures
spliced into `Router.middlewares`. -/
def Middleware : Type :=
  Request × Response → (Request × Response → Request × Response) → Request × Response

/-- A `Route` (lines 88-91). -/
structure Route where
  path : String
  handler : Handler

/-- One entry of `Router.middlewares`.  The array initializer (lines 95-99)
puts the dispatch terminator `(req, res) => this.handleRequest(req, res)`
in the array; since that closure reads `this` dynamically we keep it as a
distinguished marker, interpreted against the owning router by `runChain`. -/
inductive MwEntry where
  | user (m : Middleware) : MwEntry
  | terminator : MwEntry

/-- `Router` (lines 93-225): the route table (a JS object keyed by method
name, modelled as an association list in insertion order) and the
middleware array, initialized to `[terminator]`. -/
structure Router where
  routes : List (String × List Route) := []
  middlewares : List MwEntry := [MwEntry.terminator]

/-- `newApp` (lines 230-233): a fresh `Router`. -/
def newApp : Router := {}

/-- The shared body of the registration methods (lines 101-135): create the
method bucket if absent, then push the route at its end. -/
def pushRoute : List (String × List Route) → String → Route → List (String × List Route)
  | [], m, rt => [(m, [rt])]
  | (k, b) :: rest, m, rt =>
      if k == m then (k, b ++ [rt]) :: rest else (k, b) :: pushRoute rest m rt

/-- Registration under an explicit method name; `post`/`get`/`put`/`delete`/
`all` (lines 101-135) all share this body with their fixed method string. -/
def Router.register (r : Router) (method path : String) (handler : Handler) : Router :=
  { r with routes := pushRoute r.routes method { path := path, handler := handler } }

/-- `Router.post` (lines 101-107). -/
def Router.post (r : Router) (path : String) (handler : Handler) : Router :=
  r.register "POST" path handler

/-- `Router.get` (lines 108-114). -/
def Router.get (r : Router) (path : String) (handler : Handler) : Router :=
  r.register "GET" path handler

/-- `Router.put` (lines 115-121). -/
def Router.put (r : Router) (path : String) (handler : Handler) : Router :=
  r.register "PUT" path handler

/-- `Router.delete` (lines 122-128). -/
def Router.delete (r : Router) (path : String) (handler : Handler) : Router :=
  r.register "DELETE" path handler

/-- `Router.all` (lines 129-135). -/
def Router.all (r : Router) (path : String) (handler : Handler) : Router :=
  r.register "ALL" path handler

/-- `Router.findRoute` (lines 137-139):
`this.routes[method]?.find((route) => route.path === path)`. -/
def Router.findRoute (r : Router) (method path : String) : Option Route :=
  (r.routes.lookup method).bind fun bucket => bucket.find? fun route => route.path == path

/-- `Router.getRoute` (lines 208-215): exact-method bucket first, then the
"ALL" bucket, else `undefined`. -/
def Router.getRoute (r : Router) (req : Request) : Option Route :=
  match r.findRoute req.method req.path with
  | some route => some route
  | none => r.findRoute "ALL" req.path

/-- `Router.executeHandler` (lines 141-143). -/
def executeHandler (route : Route) (st : Request × Response) : Request × Response :=
  route.handler st

/-- The route built by `Router.notFound` (lines 145-154): a handler doing
`res.status(404).json({ message: "not found" })` under the request's path. -/
def notFoundRoute (req : Request) : Route :=
  { path := req.path
    handler := fun st => (st.1, (st.2.status 404).json (.obj [("message", .str "not found")])) }

/-- `Router.notFound` (lines 145-154). -/
def Router.notFound (st : Request × Response) : Request × Response :=
  executeHandler (notFoundRoute st.1) st

/-- `Router.handleRequest` (lines 217-224): terminal route dispatch. -/
def Router.handleRequest (r : Router) (st : Request × Response) : Request × Response :=
  match r.getRoute st.1 with
  | some route => executeHandler route st
  | none => Router.notFound st

/-- Interpreter of the middleware array (dispatch starts at
`this.middlewares[0]`, line 159).  A user middleware's `next` closure reads
`this.middlewares[idx + 1]` at call time; because every registration
precedes dispatch and the tables are read-only during request handling
(spec §5), that dynamic lookup is exactly the run of the remaining suffix,
which is what the continuation passed here performs.  The terminator entry
runs `this.handleRequest` on the owning router. -/
def runChain (r : Router) : List MwEntry → Request × Response → Request × Response
  | [], st => st
  | MwEntry.user m :: rest, st => m st (fun st2 => runChain r rest st2)
  | MwEntry.terminator :: _, st => r.handleRequest st

/-- `Router.getResponse` (lines 156-161): run the chain on a fresh
`Response` whose resolver settles the pending promise; `none` models an
invocation that hangs because nothing ever finished the response. -/
def Router.getResponse (r : Router) (req : Request) : Option LambdaResult :=
  (runChain r r.middlewares (req, {})).2.resolved

/-- `Router.use` with a middleware argument (lines 178-194): splice the
wrapped step at index `length - 1`, i.e. immediately before the dispatch
terminator. -/
def Router.use (r : Router) (m : Middleware) : Router :=
  let idx := r.middlewares.length - 1
  { r with middlewares := r.middlewares.take idx ++ MwEntry.user m :: r.middlewares.drop idx }

/-- The middleware registered by `Router.useRouter` (lines 196-206): peek
at the child's route table after stripping the mount path; on a miss
restore the path and fall through; on a hit call the child's
`handleRequest` — the child's terminal dispatch, not its middleware
array. -/
def mountStep (path : String) (router : Router) : Middleware :=
  fun st next =>
    if !(jsStartsWith st.1.path path) then next st
    else
      let req1 := st.1.removePathPrefix path
      match router.getRoute req1 with
      | none => next (req1.addPathPrefix path, st.2)
      | some _ => router.handleRequest (req1, st.2)

/-- `Router.useRouter` (lines 196-206): `use` applied to the mount step. -/
def Router.useRouter (r : Router) (path : String) (router : Router) : Router :=
  r.use (mountStep path router)

/-- Value of one base64 alphabet character (`=` and foreign characters are
skipped, as `Buffer.from(s, "base64")` ignores them). -/
def b64Val (c : Char) : Option Nat :=
  let n := c.toNat
  if 65 ≤ n ∧ n ≤ 90 then some (n - 65)
  else if 97 ≤ n ∧ n ≤ 122 then some (n - 71)
  else if 48 ≤ n ∧ n ≤ 57 then some (n + 4)
  else if c = '+' then some 62
  else if c = '/' then some 63
  else none

/-- Reassemble bytes from 6-bit groups (4 groups to 3 bytes, with the usual
truncated tails). -/
def b64Group : List Nat → List Nat
  | a :: b :: c :: d :: rest =>
      (a * 4 + b / 16) :: ((b % 16) * 16 + c / 4) :: ((c % 4) * 64 + d) :: b64Group rest
  | [a, b, c] => [a * 4 + b / 16, (b % 16) * 16 + c / 4]
  | [a, b] => [a * 4 + b / 16]
  | _ => []

/-- UTF-8 decoding of a byte list (as `buffer.toString("utf-8")`); malformed
sequences or invalid scalars degrade to replacement output, which no claim
exercises (the claims only decode ASCII). -/
def utf8DecodeBytes : List Nat → List Char
  | [] => []
  | b :: rest =>
    if b < 0x80 then Char.ofNat b :: utf8DecodeBytes rest
    else if b < 0xC0 then Char.ofNat 0xFFFD :: utf8DecodeBytes rest
    else if b < 0xE0 then
      match rest with
      | b2 :: rest2 => Char.ofNat ((b % 32) * 64 + b2 % 64) :: utf8DecodeBytes rest2
      | [] => [Char.ofNat 0xFFFD]
    else if b < 0xF0 then
      match rest with
      | b2 :: b3 :: rest3 =>
          Char.ofNat ((b % 16) * 4096 + (b2 % 64) * 64 + b3 % 64) :: utf8DecodeBytes rest3
      | _ => [Char.ofNat 0xFFFD]
    else
      match rest with
      | b2 :: b3 :: b4 :: rest4 =>
          Char.ofNat ((b % 8) * 262144 + (b2 % 64) * 4096 + (b3 % 64) * 64 + b4 % 64) ::
            utf8DecodeBytes rest4
      | _ => [Char.ofNat 0xFFFD]

/-- Model of `Buffer.from(s, "base64").toString("utf-8")` (lines 239-240). -/
def base64decode (s : String) : String :=
  String.mk (utf8DecodeBytes (b64Group (s.data.filterMap b64Val)))

/-- UTF-8 bytes of one character (for percent-encoding). -/
def utf8Bytes (c : Char) : List Nat :=
  let n := c.toNat
  if n < 0x80 then [n]
  else if n < 0x800 then [0xC0 + n / 64, 0x80 + n % 64]
  else if n < 0x10000 then [0xE0 + n / 4096, 0x80 + (n / 64) % 64, 0x80 + n % 64]
  else [0xF0 + n / 262144, 0x80 + (n / 4096) % 64, 0x80 + (n / 64) % 64, 0x80 + n % 64]

/-- Characters `encodeURIComponent` leaves unescaped. -/
def uriUnreserved (c : Char) : Bool :=
  c.isAlphanum || ['-', '_', '.', '!', '~', '*', '(', ')'].contains c || c = Char.ofNat 39

/-- Model of `encodeURIComponent` (line 254). -/
def encodeURIComponent (s : String) : String :=
  String.mk ((s.data.map fun c =>
    if uriUnreserved c then [c]
    else ((utf8Bytes c).map fun b => ['%', hexDigit (b / 16), hexDigit (b % 16)]).flatten).flatten)

/-- JSON whitespace accepted by `JSON.parse`. -/
def jsonWs (c : Char) : Bool :=
  c == ' ' || c == '\t' || c == '\n' || c == '\r'

/-- Skip leading JSON whitespace. -/
def skipWs : List Char → List Char
  | [] => []
  | c :: cs => if jsonWs c then skipWs cs else c :: cs

/-- Value of one hex digit. -/
def hexVal (c : Char) : Option Nat :=
  let n := c.toNat
  if 48 ≤ n ∧ n ≤ 57 then some (n - 48)
  else if 65 ≤ n ∧ n ≤ 70 then some (n - 55)
  else if 97 ≤ n ∧ n ≤ 102 then some (n - 87)
  else none

/-- Value of one short string escape. -/
def escVal (e : Char) : Option Char :=
  if e = '"' then some '"'
  else if e = '\\' then some '\\'
  else if e = '/' then some '/'
  else if e = 'b' then some (Char.ofNat 8)
  else if e = 'f' then some (Char.ofNat 12)
  else if e = 'n' then some '\n'
  else if e = 'r' then some '\r'
  else if e = 't' then some '\t'
  else none

/-- Parse the body of a JSON string literal after its opening quote;
returns content and remaining input. -/
def parseStr : List Char → Option (List Char × List Char)
  | [] => none
  | c :: cs =>
    if c = '"' then some ([], cs)
    else if c = '\\' then
      match cs with
      | [] => none
      | e :: cs2 =>
        if e = 'u' then
          match cs2 with
          | h1 :: h2 :: h3 :: h4 :: cs3 =>
            match hexVal h1, hexVal h2, hexVal h3, hexVal h4 with
            | some v1, some v2, some v3, some v4 =>
              match parseStr cs3 with
              | some (content, rest) =>
                  some (Char.ofNat (v1 * 4096 + v2 * 256 + v3 * 16 + v4) :: content, rest)
              | none => none
            | _, _, _, _ => none
          | _ => none
        else
          match escVal e with
          | some ec =>
            match parseStr cs2 with
            | some (content, rest) => some (ec :: content, rest)
            | none => none
          | none => none
    else if c.toNat < 32 then none
    else
      match parseStr cs with
      | some (content, rest) => some (c :: content, rest)
      | none => none

/-- Digits to a natural number. -/
def digitsToNat (ds : List Char) : Nat :=
  ds.foldl (fun a c => a * 10 + (c.toNat - 48)) 0

/-- Optional fraction part of a JSON number. -/
def parseFrac : List Char → Option (List Char × List Char)
  | '.' :: r =>
      let p := r.span (·.isDigit)
      if p.1.isEmpty then none else some p
  | cs => some ([], cs)

/-- Optional exponent part of a JSON number. -/
def parseExp : List Char → Option (Int × List Char)
  | [] => some (0, [])
  | c :: r =>
    if c = 'e' ∨ c = 'E' then
      let sr : Int × List Char :=
        match r with
        | '+' :: rr => (1, rr)
        | '-' :: rr => (-1, rr)
        | _ => (1, r)
      let p := sr.2.span (·.isDigit)
      if p.1.isEmpty then none else some (sr.1 * (digitsToNat p.1 : Int), p.2)
    else some (0, c :: r)

/-- Parse a JSON number (strict grammar: no leading zeros, `-` needs
digits, `.`/`e` need digits). -/
def parseNum (cs : List Char) : Option (Json × List Char) :=
  let sg : Bool × List Char :=
    match cs with
    | '-' :: r => (true, r)
    | _ => (false, cs)
  let p := sg.2.span (·.isDigit)
  if p.1.isEmpty then none
  else if 1 < p.1.length ∧ p.1.head? = some '0' then none
  else
    match parseFrac p.2 with
    | none => none
    | some (fds, cs3) =>
      match parseExp cs3 with
      | none => none
      | some (ev, cs4) =>
        let mant : Nat := digitsToNat (p.1 ++ fds)
        let m : Int := if sg.1 then -(mant : Int) else (mant : Int)
        some (.num m (ev - (fds.length : Int)), cs4)

mutual

/-- Fuel-indexed recursive-descent JSON value parser (model of
`JSON.parse`); fuel `length + 1` always suffices because every recursive
call consumes at least one character first. -/
def parseVal : Nat → List Char → Option (Json × List Char)
  | 0, _ => none
  | fuel + 1, cs =>
    match skipWs cs with
    | [] => none
    | c :: rest =>
      if c = 'n' then
        match rest with
        | 'u' :: 'l' :: 'l' :: r => some (.null, r)
        | _ => none
      else if c = 't' then
        match rest with
        | 'r' :: 'u' :: 'e' :: r => some (.bool true, r)
        | _ => none
      else if c = 'f' then
        match rest with
        | 'a' :: 'l' :: 's' :: 'e' :: r => some (.bool false, r)
        | _ => none
      else if c = '"' then
        match parseStr rest with
        | some (content, r) => some (.str (String.mk content), r)
        | none => none
      else if c = '-' ∨ c.isDigit then parseNum (c :: rest)
      else if c = '[' then
        match skipWs rest with
        | ']' :: r => some (.arr [], r)
        | cs2 =>
          match parseVal fuel cs2 with
          | none => none
          | some (x, r) =>
            match parseArrTail fuel r with
            | none => none
            | some (xs, r2) => some (.arr (x :: xs), r2)
      else if c = '\x7b' then
        match skipWs rest with
        | '\x7d' :: r => some (.obj [], r)
        | cs2 =>
          match parseMember fuel cs2 with
          | none => none
          | some (kv, r) =>
            match parseObjTail fuel r with
            | none => none
            | some (kvs, r2) => some (.obj (kv :: kvs), r2)
      else none

/-- Array elements after the first one. -/
def parseArrTail : Nat → List Char → Option (List Json × List Char)
  | 0, _ => none
  | fuel + 1, cs =>
    match skipWs cs with
    | ',' :: r =>
      match parseVal fuel r with
      | none => none
      | some (x, r2) =>
        match parseArrTail fuel r2 with
        | none => none
        | some (xs, r3) => some (x :: xs, r3)
    | ']' :: r => some ([], r)
    | _ => none

/-- One `"key": value` object member. -/
def parseMember : Nat → List Char → Option ((String × Json) × List Char)
  | 0, _ => none
  | fuel + 1, cs =>
    match skipWs cs with
    | '"' :: r =>
      match parseStr r with
      | none => none
      | some (content, r2) =>
        match skipWs r2 with
        | ':' :: r3 =>
          match parseVal fuel r3 with
          | none => none
          | some (v, r4) => some ((String.mk content, v), r4)
        | _ => none
    | _ => none

/-- Object members after the first one. -/
def parseObjTail : Nat → List Char → Option (List (String × Json) × List Char)
  | 0, _ => none
  | fuel + 1, cs =>
    match skipWs cs with
    | ',' :: r =>
      match parseMember fuel r with
      | none => none
      | some (kv, r2) =>
        match parseObjTail fuel r2 with
        | none => none
        | some (kvs, r3) => some (kv :: kvs, r3)
    | '\x7d' :: r => some ([], r)
    | _ => none

end

/-- Model of `JSON.parse` (line 247): a full-input parse; `none` models the
thrown `SyntaxError` that the source swallows. -/
def jsonParse (s : String) : Option Json :=
  match parseVal (s.data.length + 1) s.data with
  | none => none
  | some (v, rest) =>
    match skipWs rest with
    | [] => some v
    | _ => none

/-- The inbound `APIGatewayProxyEvent` fields read by `parseRequest`
(lines 235-265); `body : Option String` models `string | null`. -/
structure APIGatewayProxyEvent where
  httpMethod : String
  path : String
  headers : List (String × String)
  body : Option String
  isBase64Encoded : Bool

/-- The invocation `Context`: its enumerable serializable fields, as seen
by the object spread in line 255 (the non-serializable
`getRemainingTimeInMillis` accessor is overwritten with `undefined` there
and hence dropped by `JSON.stringify`). -/
structure LambdaContext where
  fields : List (String × Json)

/-- JS object-spread update: overwrite the key in place if present,
otherwise append it. -/
def setKey : List (String × HeaderV) → String → HeaderV → List (String × HeaderV)
  | [], k, v => [(k, v)]
  | (k0, v0) :: rest, k, v =>
      if k0 == k then (k0, v) :: rest else (k0, v0) :: setKey rest k v

/-- The synthetic header value of line 254-256:
`encodeURIComponent(JSON.stringify({...context, getRemainingTimeInMillis: undefined}))`. -/
def contextHeaderValue (context : LambdaContext) : String :=
  encodeURIComponent
    (Json.stringify (.obj (context.fields.filter fun kv => !(kv.1 == "getRemainingTimeInMillis"))))

/-- `parseRequest` (lines 235-265).  The JS truthiness test
`event.isBase64Encoded && event.body` is false for `null` and for the
empty string; `JSON.parse(body ?? "")` throwing is modelled by
`jsonParse` returning `none`, in which case the pre-parse body value is
kept. -/
def parseRequest (event : APIGatewayProxyEvent) (context : LambdaContext) : Request :=
  let decoded : Option String :=
    match event.body with
    | some s => if event.isBase64Encoded && !(s == "") then some (base64decode s) else some s
    | none => none
  let body : BodyVal :=
    match jsonParse (decoded.getD "") with
    | some j => .json j
    | none =>
      match decoded with
      | some s => .str s
      | none => .null
  { body := body
    headers := setKey (event.headers.map fun kv => (kv.1, HeaderV.one kv.2))
      "x-apigateway-context" (.one (contextHeaderValue context))
    method := event.httpMethod
    path := event.path }

/-- The three `Response` mutators, reified so that "any sequence of
mutator calls after finishing" can be quantified over (claim C7). -/
inductive Mutator where
  | status (c : Int) : Mutator
  | json (d : Json) : Mutator
  | send (s : String) : Mutator

/-- Apply one reified mutator. -/
def applyMutator (res : Response) : Mutator → Response
  | .status c => res.status c
  | .json d => res.json d
  | .send s => res.send s

/-- Apply a sequence of mutator calls left to right. -/
def applyMutators (res : Response) (ms : List Mutator) : Response :=
  ms.foldl applyMutator res

/-- A route registration call, reified for quantification (claim C2). -/
structure Registration where
  method : String
  path : String
  handler : Handler

/-- Apply a sequence of registration calls. -/
def registerAll (r : Router) : List Registration → Router
  | [] => r
  | reg :: rest => registerAll (r.register reg.method reg.path reg.handler) rest

/-- Modelled from the spec (§4.1): the bucket of a method is the sequence
of its registrations in registration order. -/
def bucketSpec (regs : List Registration) (method : String) : List Route :=
  (regs.filter fun reg => reg.method == method).map fun reg =>
    { path := reg.path, handler := reg.handler }

/-- Modelled from the spec (§4.1, claim C2): the reference lookup — first
exact string match in the method's bucket in registration order, else
first exact match in the "ALL" bucket, else not-found. -/
def lookupSpec (regs : List Registration) (method path : String) : Option Route :=
  match (bucketSpec regs method).find? (fun rt => rt.path == path) with
  | some rt => some rt
  | none => (bucketSpec regs "ALL").find? (fun rt => rt.path == path)

/-- A router-building call, reified so claim C5 can quantify over every
sequence of `use(fn)` / `use(prefix, router)` / route registrations. -/
inductive BuildOp where
  | useMw (m : Middleware) : BuildOp
  | mount (p : String) (child : Router) : BuildOp
  | reg (method path : String) (h : Handler) : BuildOp

/-- Apply one building call. -/
def applyBuildOp (r : Router) : BuildOp → Router
  | .useMw m => r.use m
  | .mount p c => r.useRouter p c
  | .reg m p h => r.register m p h

/-- Build a router from a fresh one by a sequence of calls. -/
def buildRouter (ops : List BuildOp) : Router :=
  ops.foldl applyBuildOp newApp

/-- The user middleware steps contributed by a build sequence, in
registration order (`use(prefix, router)` contributes its mount step). -/
def opsMws (ops : List BuildOp) : List Middleware :=
  ops.filterMap fun op =>
    match op with
    | .useMw m => some m
    | .mount p c => some (mountStep p c)
    | .reg _ _ _ => none

/-- Reference semantics of a user-middleware list: run the steps in order,
each one choosing whether to call its continuation, with `fin` (the
dispatch terminator's action) at the end. -/
def chainUsers (fin : Request × Response → Request × Response) :
    List Middleware → Request × Response → Request × Response
  | [], st => fin st
  | m :: rest, st => m st (chainUsers fin rest)

/-! ### Concrete fixtures used by counterexamples and witnesses -/

/-- A route handler that finishes the response with body "handler". -/
def hX : Handler := fun st => (st.1, st.2.send "handler")

/-- A user middleware that finishes the response with body "middleware"
and never calls its continuation. -/
def mwMark : Middleware := fun st _ => (st.1, st.2.send "middleware")

/-- A child router with one route `GET /x` and one user middleware. -/
def childC1 : Router := (newApp.get "/x" hX).use mwMark

/-- A request for `GET /api/x`. -/
def reqC1 : Request := { body := .null, headers := [], method := "GET", path := "/api/x" }

/-- The same request with the mount path stripped. -/
def reqC1s : Request := { body := .null, headers := [], method := "GET", path := "/x" }

/-- A request matching no route. -/
def reqC6 : Request := { body := .null, headers := [], method := "GET", path := "/nope" }

/-- An invocation context with no serializable fields. -/
def ctxW : LambdaContext := { fields := [] }

/-- An event carrying the base64 encoding of the text `{"a":1}`. -/
def eventB64 : APIGatewayProxyEvent :=
  { httpMethod := "POST", path := "/", headers := [], body := some "eyJhIjoxfQ==",
    isBase64Encoded := true }

/-- An event carrying the non-JSON text body "hello". -/
def eventHello : APIGatewayProxyEvent :=
  { httpMethod := "POST", path := "/", headers := [], body := some "hello",
    isBase64Encoded := false }

/-- An event with a `null` body that nevertheless claims base64 encoding. -/
def eventNull : APIGatewayProxyEvent :=
  { httpMethod := "GET", path := "/", headers := [], body := none,
    isBase64Encoded := true }

/-! ### Helper lemmas -/

/-- If `s` starts with `p`, prepending `p` to `s` minus its first
`p.length` characters gives back `s`. -/
theorem roundTrip_of_startsWith (s p : String) (h : jsStartsWith s p = true) :
    jsConcat p (jsDrop s (jsLength p)) = s := by
  have hd : s.data.take p.data.length = p.data := by
    simpa [jsStartsWith] using h
  have key : p.data ++ s.data.drop p.data.length = s.data := by
    nth_rewrite 1 [← hd]
    exact List.take_append_drop _ _
  show String.mk (p.data ++ s.data.drop p.data.length) = s
  rw [key]

/-- Request-level round trip under the prefix hypothesis. -/
theorem request_roundTrip (r : Request) (p : String) (h : jsStartsWith r.path p = true) :
    (r.removePathPrefix p).addPathPrefix p = r := by
  cases r with
  | mk b hs m pa =>
    simp [Request.removePathPrefix, Request.addPathPrefix, roundTrip_of_startsWith pa p h]

/-- No single mutator can change an already-settled resolution. -/
theorem applyMutator_keeps_resolved (res : Response) (m : Mutator) (x : LambdaResult)
    (h : res.resolved = some x) : (applyMutator res m).resolved = some x := by
  cases m <;>
    simp [applyMutator, Response.status, Response.json, Response.send, Response.finish, h]

/-- No sequence of mutators can change an already-settled resolution. -/
theorem applyMutators_keeps_resolved (ms : List Mutator) (res : Response) (x : LambdaResult)
    (h : res.resolved = some x) : (applyMutators res ms).resolved = some x := by
  induction ms generalizing res with
  | nil => simpa [applyMutators] using h
  | cons m rest ih =>
    have h1 := applyMutator_keeps_resolved res m x h
    simpa [applyMutators] using ih (applyMutator res m) h1

/-! ### Claims -/

/-- C3, counterexample: the round-trip law as stated quantifies over every
string `p`; at `path = "/abc"`, `p = "x"` the pair of calls yields
`"xabc"`, not `"/abc"`, because `removePathPrefix` drops `p.length`
characters without checking that the path starts with `p`. -/
theorem C3_counterexample :
    ¬ (((({ body := BodyVal.null, headers := [], method := "GET", path := "/abc" } : Request).removePathPrefix
          "x").addPathPrefix "x").path = "/abc") := by
  decide

/-- C3 (amended): for every Request `r` and string `p` such that `r.path`
starts with `p` (the matched-pair discipline of the mount step),
`removePathPrefix p` followed by `addPathPrefix p` restores `r` exactly. -/
theorem C3_roundTrip (r : Request) (p : String) (h : jsStartsWith r.path p = true) :
    (r.removePathPrefix p).addPathPrefix p = r :=
  request_roundTrip r p h

/-- C3 witness: the amended round trip at a concrete request and prefix. -/
theorem C3_witness :
    jsStartsWith "/api/x" "/api" = true ∧
    ((({ body := BodyVal.null, headers := [], method := "GET", path := "/api/x" } : Request).removePathPrefix
        "/api").addPathPrefix "/api") =
      { body := BodyVal.null, headers := [], method := "GET", path := "/api/x" } :=
  ⟨rfl, C3_roundTrip { body := BodyVal.null, headers := [], method := "GET", path := "/api/x" } "/api" rfl⟩

/-- C9: `status c` sets `statusCode` to `c` and changes nothing else — in
particular it never fires the resolver (`resolved` is untouched) — while
`json` and `send` always leave the response finished. -/
theorem C9_status_frame (res : Response) (c : Int) (d : Json) (s : String) :
    (res.status c).statusCode = c ∧ (res.status c).body = res.body ∧
    (res.status c).contentType = res.contentType ∧
    (res.status c).resolved = res.resolved ∧
    ((res.json d).resolved).isSome = true ∧ ((res.send s).resolved).isSome = true := by
  refine ⟨rfl, rfl, rfl, rfl, ?_, ?_⟩ <;>
    cases hr : res.resolved <;>
      simp [Response.json, Response.send, Response.finish, hr]

/-- C7: `json d` sets the body to the serialization of `d` and the content
type to application/json; on an unfinished response it finishes exactly
once, settling the result with the snapshot taken at that moment; and once
a response is settled, no sequence of further `status`/`json`/`send` calls
can change the settled result. -/
theorem C7_json_finish (res : Response) (d : Json) (ms : List Mutator) (x : LambdaResult) :
    (res.json d).body = d.stringify ∧
    (res.json d).contentType = "application/json" ∧
    (({ res with resolved := none } : Response).json d).resolved =
      some { statusCode := res.statusCode, body := d.stringify,
             headers := [("Content-Type", "application/json")] } ∧
    (applyMutators ({ res with resolved := some x } : Response) ms).resolved = some x := by
  refine ⟨?_, ?_, ?_, applyMutators_keeps_resolved ms _ x rfl⟩
  · cases hr : res.resolved <;> simp [Response.json, Response.finish, hr]
  · cases hr : res.resolved <;> simp [Response.json, Response.finish, hr]
  · simp [Response.json, Response.finish, resToResponse]

/-- C4: the mount step is observably transparent on fallthrough: if the
request path does not start with the mount path it calls the continuation
with the state untouched, and if it does start with it but the child's
route table has no match for the stripped path, the original path is
restored exactly before the continuation is called. -/
theorem C4_mount_fallthrough (s : String) (child : Router) (req : Request) (res : Response)
    (k : Request × Response → Request × Response) :
    (jsStartsWith req.path s = false → mountStep s child (req, res) k = k (req, res)) ∧
    (jsStartsWith req.path s = true →
      child.getRoute (req.removePathPrefix s) = none →
      mountStep s child (req, res) k = k (req, res)) := by
  constructor
  · intro h
    simp [mountStep, h]
  · intro h1 h2
    simp [mountStep, h1, h2, request_roundTrip req s h1]

/-- C4 witness: both fallthrough branches at concrete inputs. -/
theorem C4_witness :
    mountStep "/api" newApp
        (({ body := BodyVal.null, headers := [], method := "GET", path := "/other" } : Request),
          ({} : Response)) id =
      id (({ body := BodyVal.null, headers := [], method := "GET", path := "/other" } : Request),
          ({} : Response)) ∧
    mountStep "/api" newApp
        (({ body := BodyVal.null, headers := [], method := "GET", path := "/api/none" } : Request),
          ({} : Response)) id =
      id (({ body := BodyVal.null, headers := [], method := "GET", path := "/api/none" } : Request),
          ({} : Response)) :=
  ⟨(C4_mount_fallthrough "/api" newApp _ _ id).1 rfl,
   (C4_mount_fallthrough "/api" newApp _ _ id).2 rfl rfl⟩

/-- C1, counterexample: mounting does not invoke the child's full
dispatch.  `childC1` has a user middleware that finishes with body
"middleware" (and would run first under full dispatch); the mount step at
`GET /api/x` instead produces the route handler's body "handler", because
`useRouter` calls the child's `handleRequest` directly and skips the
child's middleware chain. -/
theorem C1_counterexample :
    (mountStep "/api" childC1 (reqC1, {}) id).2.resolved =
        some { statusCode := 200, body := "handler",
               headers := [("Content-Type", "text/html")] } ∧
    (runChain childC1 childC1.middlewares (reqC1s, {})).2.resolved =
        some { statusCode := 200, body := "middleware",
               headers := [("Content-Type", "text/html")] } ∧
    ¬ ((mountStep "/api" childC1 (reqC1, {}) id).2.resolved =
       (runChain childC1 childC1.middlewares (reqC1s, {})).2.resolved) := by
  refine ⟨by decide, by decide, by decide⟩

/-- C1 (amended): when the request path starts with the mount path and the
child's route table matches the stripped path, the mount step invokes the
child's terminal route dispatch (`handleRequest`: lookup plus handler or
not-found) directly on the request with the rewritten path — bypassing the
child's middleware chain, so middleware registered on the child via
`use(fn)` and nested mounts on the child do not run. -/
theorem C1_mount_terminal (s : String) (child : Router) (req : Request) (res : Response)
    (k : Request × Response → Request × Response) (rt : Route)
    (h1 : jsStartsWith req.path s = true)
    (h2 : child.getRoute (req.removePathPrefix s) = some rt) :
    mountStep s child (req, res) k = child.handleRequest (req.removePathPrefix s, res) := by
  simp [mountStep, h1, h2]

/-- C1 witness: the amended statement at the concrete mounted router. -/
theorem C1_witness :
    mountStep "/api" childC1 (reqC1, {}) id = childC1.handleRequest (reqC1s, {}) :=
  C1_mount_terminal "/api" childC1 reqC1 {} id { path := "/x", handler := hX } rfl rfl

/-- C6: when lookup misses both the method bucket and the "ALL" bucket,
terminal dispatch runs the built-in handler, finishing an unfinished
response with status 404, body the JSON serialization of
`{message: "not found"}`, and content type application/json; the miss is
handled totally, never surfacing as a failure. -/
theorem C6_not_found (r : Router) (req : Request) (res : Response)
    (h1 : r.getRoute req = none) (h2 : res.resolved = none) :
    (r.handleRequest (req, res)).2.resolved =
      some { statusCode := 404, body := "\x7b\"message\":\"not found\"\x7d",
             headers := [("Content-Type", "application/json")] } := by
  have hstr : Json.stringify (.obj [("message", Json.str "not found")]) =
      "\x7b\"message\":\"not found\"\x7d" := rfl
  simp [Router.handleRequest, h1, Router.notFound, executeHandler, notFoundRoute,
        Response.status, Response.json, Response.finish, h2, resToResponse, hstr]

/-- C6 witness: a fresh router and an unmatched request produce the 404
JSON result. -/
theorem C6_witness :
    newApp.getRoute reqC6 = none ∧ ({} : Response).resolved = none ∧
    (newApp.handleRequest (reqC6, {})).2.resolved =
      some { statusCode := 404, body := "\x7b\"message\":\"not found\"\x7d",
             headers := [("Content-Type", "application/json")] } :=
  ⟨rfl, rfl, C6_not_found newApp reqC6 {} rfl rfl⟩

/-- C10: an event with a `null` body yields a Request with a `null` body
regardless of the base64 flag: the truthiness guard skips decoding, the
JSON parse of the empty-string fallback fails, and the original `null`
is kept. -/
theorem C10_null_body (event : APIGatewayProxyEvent) (context : LambdaContext)
    (h : event.body = none) :
    (parseRequest event context).body = BodyVal.null := by
  have hp : jsonParse "" = none := rfl
  simp [parseRequest, h, hp]

/-- C10 witness: concrete null-body event with `isBase64Encoded: true`. -/
theorem C10_witness : (parseRequest eventNull ctxW).body = BodyVal.null :=
  C10_null_body eventNull ctxW rfl

/-- C8: for any event with a string body, the Request body is computed by
decoding base64 first when the event declares it (the empty string decodes
to itself, so the source's truthiness guard is equivalent), then parsing
the text as JSON: on success the body is the parsed structure, on failure
it is the (possibly decoded) raw text unchanged, the failure being
swallowed. -/
theorem C8_body_decode (event : APIGatewayProxyEvent) (context : LambdaContext) (s : String)
    (h : event.body = some s) :
    (parseRequest event context).body =
      (match jsonParse (if event.isBase64Encoded then base64decode s else s) with
       | some j => BodyVal.json j
       | none => BodyVal.str (if event.isBase64Encoded then base64decode s else s)) := by
  cases hb : event.isBase64Encoded with
  | false => simp [parseRequest, h, hb]
  | true =>
    by_cases hs : s = ""
    · subst hs
      have hd : base64decode "" = "" := rfl
      simp [parseRequest, h, hb, hd]
    · have hs' : (s == "") = false := by simp [hs]
      simp [parseRequest, h, hb, hs']

/-- C8 witness: base64 of the text of an object parses into the structure;
the non-JSON text "hello" stays the literal string. -/
theorem C8_witness :
    (parseRequest eventB64 ctxW).body = BodyVal.json (.obj [("a", Json.num 1 0)]) ∧
    (parseRequest eventHello ctxW).body = BodyVal.str "hello" :=
  ⟨(C8_body_decode eventB64 ctxW "eyJhIjoxfQ==" rfl).trans rfl,
   (C8_body_decode eventHello ctxW "hello" rfl).trans rfl⟩

/-- Effect of one registration on the bucket seen by `lookup`. -/
theorem lookup_pushRoute (routes : List (String × List Route)) (m : String) (rt : Route)
    (m' : String) :
    (pushRoute routes m rt).lookup m' =
      if m' = m then some (((routes.lookup m).getD []) ++ [rt]) else routes.lookup m' := by
  induction routes with
  | nil =>
    by_cases h : m' = m
    · subst h; simp [pushRoute, List.lookup_cons]
    · have hbe : (m' == m) = false := beq_false_of_ne h
      simp [pushRoute, List.lookup_cons, h, hbe]
  | cons kv rest ih =>
    obtain ⟨k, b⟩ := kv
    by_cases hk : k = m
    · subst hk
      by_cases h' : m' = k
      · subst h'; simp [pushRoute, List.lookup_cons]
      · have hbe : (m' == k) = false := beq_false_of_ne h'
        simp [pushRoute, List.lookup_cons, h', hbe]
    · have hkb : (k == m) = false := beq_false_of_ne hk
      have hmb : (m == k) = false := beq_false_of_ne (fun hc => hk hc.symm)
      by_cases h' : m' = k
      · subst h'
        simp [pushRoute, hkb, List.lookup_cons, hk]
      · have hbe : (m' == k) = false := beq_false_of_ne h'
        simp [pushRoute, hkb, List.lookup_cons, hbe, hmb, ih]

/-- Effect of one registration on `findRoute`: the new route is only found
in its own method bucket, and only after every previously registered
route of that bucket. -/
theorem findRoute_register (r : Router) (m p : String) (hd : Handler) (m' p' : String) :
    (r.register m p hd).findRoute m' p' =
      ((r.findRoute m' p').or
        (if m' = m ∧ p' = p then some { path := p, handler := hd } else none)) := by
  simp only [Router.register, Router.findRoute]
  rw [lookup_pushRoute]
  by_cases hm : m' = m
  · subst hm
    cases hb : r.routes.lookup m' with
    | none =>
      by_cases hp : p' = p
      · subst hp
        simp [hb, List.find?]
      · have hpb : (p == p') = false := beq_false_of_ne (fun hc => hp hc.symm)
        simp [hb, List.find?, hpb, hp]
    | some bucket =>
      by_cases hp : p' = p
      · subst hp
        simp [hb, List.find?_append, List.find?]
      · have hpb : (p == p') = false := beq_false_of_ne (fun hc => hp hc.symm)
        simp [hb, List.find?_append, List.find?, hpb, hp]
  · simp [hm]

/-- `findRoute` after a sequence of registrations: previously present
routes first, then the spec bucket of the new registrations in
registration order. -/
theorem findRoute_registerAll (r : Router) (regs : List Registration) (m' p' : String) :
    (registerAll r regs).findRoute m' p' =
      ((r.findRoute m' p').or ((bucketSpec regs m').find? fun rt => rt.path == p')) := by
  induction regs generalizing r with
  | nil => simp [registerAll, bucketSpec]
  | cons reg rest ih =>
    show (registerAll (r.register reg.method reg.path reg.handler) rest).findRoute m' p' = _
    rw [ih, findRoute_register, Option.or_assoc]
    congr 1
    by_cases hm : m' = reg.method
    · subst hm
      by_cases hp : p' = reg.path
      · subst hp
        simp [bucketSpec, List.filter_cons, List.find?]
      · have hpb : (reg.path == p') = false := beq_false_of_ne (fun hc => hp hc.symm)
        simp [bucketSpec, List.filter_cons, List.find?, hpb, hp]
    · have hmb : (reg.method == m') = false := beq_false_of_ne (fun hc => hm hc.symm)
      simp [bucketSpec, List.filter_cons, hmb, hm]

/-- C2: route lookup on a router built by any sequence of registrations is
exactly the reference function of the spec — first exact string match in
the request method's bucket in registration order (so the
earliest-registered of duplicate `(method, path)` pairs wins), else the
first exact match in the "ALL" bucket, else not-found. -/
theorem C2_lookup_spec (regs : List Registration) (req : Request) :
    (registerAll newApp regs).getRoute req = lookupSpec regs req.method req.path := by
  have hm := findRoute_registerAll newApp regs req.method req.path
  have ha := findRoute_registerAll newApp regs "ALL" req.path
  have hnew : ∀ (a b : String), newApp.findRoute a b = none := fun _ _ => rfl
  unfold Router.getRoute lookupSpec
  rw [hm, ha, hnew, hnew]
  simp [Option.none_or]

/-- Registration calls never touch the middleware array. -/
theorem register_middlewares (r : Router) (m p : String) (h : Handler) :
    (r.register m p h).middlewares = r.middlewares := rfl

/-- `use` splices the new step exactly between the previous user steps and
the dispatch terminator. -/
theorem use_middlewares (r : Router) (m : Middleware) (us : List Middleware)
    (h : r.middlewares = us.map MwEntry.user ++ [MwEntry.terminator]) :
    (r.use m).middlewares = (us ++ [m]).map MwEntry.user ++ [MwEntry.terminator] := by
  have hlen : r.middlewares.length - 1 = (us.map MwEntry.user).length := by
    simp [h]
  show r.middlewares.take (r.middlewares.length - 1) ++
      MwEntry.user m :: r.middlewares.drop (r.middlewares.length - 1) =
    (us ++ [m]).map MwEntry.user ++ [MwEntry.terminator]
  rw [hlen, h, List.take_left, List.drop_left]
  simp

/-- The middleware array of any built router: the user steps in
registration order followed by the terminator. -/
theorem foldl_middlewares (ops : List BuildOp) (r : Router) (us : List Middleware)
    (h : r.middlewares = us.map MwEntry.user ++ [MwEntry.terminator]) :
    (ops.foldl applyBuildOp r).middlewares =
      (us ++ opsMws ops).map MwEntry.user ++ [MwEntry.terminator] := by
  induction ops generalizing r us with
  | nil => simpa [opsMws] using h
  | cons op rest ih =>
    cases op with
    | useMw m =>
      have h2 := use_middlewares r m us h
      have h3 := ih (r.use m) (us ++ [m]) h2
      simpa [opsMws, applyBuildOp, List.filterMap_cons, List.append_assoc] using h3
    | mount p c =>
      have h2 := use_middlewares r (mountStep p c) us h
      have h3 := ih (r.useRouter p c) (us ++ [mountStep p c])
        (by simpa [Router.useRouter] using h2)
      simpa [opsMws, applyBuildOp, List.filterMap_cons, List.append_assoc] using h3
    | reg m p hd =>
      have h3 := ih (r.register m p hd) us (by simpa [register_middlewares] using h)
      simpa [opsMws, applyBuildOp, List.filterMap_cons] using h3

/-- Running a well-formed middleware array is the continuation-passing run
of the user steps with terminal dispatch at the end. -/
theorem runChain_users (r : Router) (ms : List Middleware) (st : Request × Response) :
    runChain r (ms.map MwEntry.user ++ [MwEntry.terminator]) st =
      chainUsers r.handleRequest ms st := by
  induction ms generalizing st with
  | nil => rfl
  | cons m rest ih =>
    show m st (fun st2 => runChain r (rest.map MwEntry.user ++ [MwEntry.terminator]) st2) =
      m st (chainUsers r.handleRequest rest)
    congr 1
    funext st2
    exact ih st2

/-- C5: after any sequence of `use(fn)` / `use(prefix, router)` /
route-registration calls, the dispatch terminator is the final element of
the middleware array with every user step spliced before it in
registration order, and dispatch runs those steps in that order in
continuation-passing style — each step reaches the next only by calling
its continuation — with terminal route dispatch last. -/
theorem C5_invariant (ops : List BuildOp) (st : Request × Response) :
    (buildRouter ops).middlewares = (opsMws ops).map MwEntry.user ++ [MwEntry.terminator] ∧
    runChain (buildRouter ops) (buildRouter ops).middlewares st =
      chainUsers ((buildRouter ops).handleRequest) (opsMws ops) st := by
  have h : (buildRouter ops).middlewares =
      (opsMws ops).map MwEntry.user ++ [MwEntry.terminator] := by
    have h0 := foldl_middlewares ops newApp [] rfl
    simpa [buildRouter] using h0
  exact ⟨h, by rw [h]; exact runChain_users _ _ _⟩
